import Mathlib

/-!
Verification of the stringtemplate4 Python engine (rydnr/stringtemplate4)
against its natural-language specification.

Each definition below is a shallow embedding of a function of the Python
source, translated branch by branch; the source file and symbol are named
in the doc comment.  Machine integers are Nat/Int with explicit masking,
fallible code returns Except, and Python exceptions are explicit error
values.  One point of the source needs a global reading decision:
interpreter.py accesses the fields `st.compiled` and `st.name` on template
instances, while st.py gives its ST instances the fields `impl` (holding
the CompiledST) and no `name`.  For the claims internal to interpreter.py
we embed the interpreter as written, reading `compiled` as the compiled
template of the instance; the field mismatch itself is the subject of the
render-chain claim, where it is modelled explicitly.

Three further facts of this source tree shape the interpreter embeddings:
the interpreter calls `self.group.get_renderer(...)` and
`self.group.get_adaptor(...)`, but STGroup and its subclasses define only
get_attribute_renderer and get_model_adaptor, so those calls raise
AttributeError; every `err_mgr.run_time_error(...)` itself raises, because
the default listener prints an STRuntimeMessage whose __str__
(st_runtime_message.py line 90) calls
Interpreter.get_enclosing_instance_stack_string, a method defined nowhere;
and `st.compiled.args_metadata` (interpreter.py lines 765, 810, 820) reads
an attribute CompiledST never defines.  The embeddings model these raises
where the corresponding source lines are reached.
-/

/- ================================================================
   § 1  StringTable  (compiler/string_table.py)
   ================================================================ -/

/-- StringTable (compiler/string_table.py): an insertion-ordered map from
strings to indices (`table`, an OrderedDict) plus the running counter `i`,
which starts at -1. -/
structure StringTable where
  table : List (String × Int)
  i : Int
deriving DecidableEq

/-- The fresh StringTable of `StringTable.__init__`. -/
def StringTable.empty : StringTable := { table := [], i := -1 }

/-- OrderedDict key lookup (`s in self.table` / `self.table[s]`):
first binding of the key wins; keys are unique by construction. -/
def tableLookup : List (String × Int) → String → Option Int
  | [], _ => none
  | (k, v) :: rest, s => if k = s then some v else tableLookup rest s

/-- StringTable.add: return the existing index if the string is present,
otherwise increment `i`, append the binding and return the new index. -/
def StringTable.add (st : StringTable) (s : String) : Int × StringTable :=
  match tableLookup st.table s with
  | some idx => (idx, st)
  | none =>
      let i2 := st.i + 1
      (i2, { table := st.table ++ [(s, i2)], i := i2 })

/-- StringTable.to_array: the keys in insertion order. -/
def StringTable.toArray (st : StringTable) : List String :=
  st.table.map Prod.fst

/-- Fold a sequence of `add` calls from a given table. -/
def StringTable.addAllFrom (st : StringTable) (l : List String) : StringTable :=
  l.foldl (fun st s => (st.add s).2) st

/-- Fold a sequence of `add` calls from the fresh table. -/
def StringTable.addAll (l : List String) : StringTable :=
  StringTable.addAllFrom StringTable.empty l

/-- Modelled from the spec words of the claim: the distinct strings of a
sequence in first-insertion order (used to compare with `to_array`). -/
def firstOccurrences (l : List String) : List String :=
  l.foldl (fun acc s => if s ∈ acc then acc else acc ++ [s]) []

/- ================================================================
   § 2  16-bit operand layout
        (compiler/compilation_state.py, compiler/bytecode_disassembler.py,
         interpreter.py)
   ================================================================ -/

/-- CompilationState.write_short (compilation_state.py lines 247-253):
`memory[index] = (value >> 8) & 0xFF; memory[index+1] = value & 0xFF`,
i.e. the high byte is stored first (big-endian), although its docstring
says little-endian. -/
def write_short (memory : List Nat) (index : Nat) (value : Nat) : List Nat :=
  ((memory.set index ((value >>> 8) % 256)).set (index + 1) (value % 256))

/-- Interpreter._get_short (interpreter.py lines 1501-1508):
`b1 = memory[addr] & 0xFF; b2 = memory[addr+1] & 0xFF; b1 | (b2 << 8)`,
i.e. the byte at the LOWER address is the LOW byte (little-endian read).
In-bounds list access is modelled with getD. -/
def interpreterGetShort (memory : List Nat) (addr : Nat) : Nat :=
  ((memory.getD addr 0) % 256) ||| (((memory.getD (addr + 1) 0) % 256) <<< 8)

/-- BytecodeDisassembler.get_short (bytecode_disassembler.py lines 132-141):
`(b1 << 8) | b2`, a big-endian read agreeing with write_short. -/
def disassemblerGetShort (memory : List Nat) (index : Nat) : Nat :=
  (((memory.getD index 0) % 256) <<< 8) ||| ((memory.getD (index + 1) 0) % 256)

/- ================================================================
   § 3  Python value domain used by the interpreter claims
   ================================================================ -/

/-- The Python values the interpreter claims range over: None, booleans,
ints, strings, lists, tuples, sets, string-keyed dicts, and opaque host
objects (no ST instances: the claims below do not nest templates). -/
inductive PyVal where
  | vnone
  | vbool (b : Bool)
  | vint (n : Int)
  | vstr (s : String)
  | vlist (xs : List PyVal)
  | vtuple (xs : List PyVal)
  | vset (xs : List PyVal)
  | vdict (es : List (String × PyVal))
  | vobj (id : Nat)

/-- Interpreter._test_attribute_true (interpreter.py lines 1399-1426),
branch for branch: None is false; a bool is itself; list/tuple/array/str
use `len(a) > 0`; dict-likes use `len(a) > 0`; any other abc.Iterable
(which is how a set reaches an emptiness test, since no earlier branch
matches it) is tested by drawing one element; anything else is true. -/
def testAttributeTrue : PyVal → Bool
  | .vnone => false
  | .vbool b => b
  | .vlist xs => !xs.isEmpty
  | .vtuple xs => !xs.isEmpty
  | .vstr s => !s.isEmpty
  | .vdict es => !es.isEmpty
  | .vset xs => !xs.isEmpty
  | .vint _ => true
  | .vobj _ => true

/- ================================================================
   § 4  Interpreter._write_object_with_options
        (interpreter.py lines 1206-1307, with its helpers
         _is_iterable, _to_iterator, _to_string, _coerce_arg_to_string)
   ================================================================ -/

/-- Python exceptions that the embedded interpreter paths can raise. -/
inductive PyExc where
  | recursionError
  | attributeError (missing : String)
  | typeError (msg : String)
  | indexError
  | stopIteration
deriving DecidableEq

/-- Python str() of a value, to which both Interpreter._to_string and
Interpreter._coerce_arg_to_string reduce for non-ST values (used for the
null option text and for coercing separator and wrap options).  Scalar
cases are exact.  Container cases render an abbreviated form: no claim
exercises a container as option text, and in the embedded write path
every non-null value is iterated rather than stringified. -/
def pyStr : PyVal → String
  | .vnone => "None"
  | .vbool true => "True"
  | .vbool false => "False"
  | .vint n => toString n
  | .vstr s => s
  | .vlist _ => "[...]"
  | .vtuple _ => "(...)"
  | .vset _ => "\x7b...\x7d"
  | .vdict _ => "\x7b...\x7d"
  | .vobj i => "<object " ++ toString i ++ ">"

/-- Interpreter._is_iterable (interpreter.py lines 1455-1469): None is
not iterable; list, tuple, array, str, dict and dict-likes (values
attribute) are iterable by the isinstance chain, which short-circuits
before any group call; every other value - sets included, since a set
has no `values` attribute - falls through to
`self.group.get_adaptor(type(o))`, a method STGroup and its subclasses
do not define (they define only get_model_adaptor), so the call raises
AttributeError. -/
def isIterable : PyVal → Except PyExc Bool
  | .vnone => .ok false
  | .vlist _ => .ok true
  | .vtuple _ => .ok true
  | .vstr _ => .ok true
  | .vdict _ => .ok true
  | .vset _ => .error (.attributeError "STGroup.get_adaptor")
  | .vint _ => .error (.attributeError "STGroup.get_adaptor")
  | .vbool _ => .error (.attributeError "STGroup.get_adaptor")
  | .vobj _ => .error (.attributeError "STGroup.get_adaptor")

/-- The characters of a string as one-character strings: _to_iterator
turns a str into `ArrayIterator(list(o))`, a list of its characters. -/
def strChars (s : String) : List PyVal :=
  s.data.map (fun c => .vstr (String.mk [c]))

/-- Interpreter._to_iterator (interpreter.py lines 1428-1453): lists,
tuples and arrays iterate their elements, a str iterates its characters,
dict-likes iterate their values; any other value - sets included - falls
to `self.group.get_adaptor(type(o))`, which STGroup does not define, so
the call raises AttributeError.  None gives the Python None (modelled
`ok none`), which callers test with `if not it`. -/
def toIterator : PyVal → Except PyExc (Option (List PyVal))
  | .vnone => .ok none
  | .vlist xs => .ok (some xs)
  | .vtuple xs => .ok (some xs)
  | .vstr s => .ok (some (strChars s))
  | .vdict es => .ok (some (es.map Prod.snd))
  | .vset _ => .error (.attributeError "STGroup.get_adaptor")
  | .vint _ => .error (.attributeError "STGroup.get_adaptor")
  | .vbool _ => .error (.attributeError "STGroup.get_adaptor")
  | .vobj _ => .error (.attributeError "STGroup.get_adaptor")

/-- The anchor flag of _write_object_with_options (line 1231):
`options[Option.ANCHOR] is True` holds only for the literal True. -/
def anchorIsTrue : Option PyVal → Bool
  | some (.vbool true) => true
  | _ => false

/-- The five option slots pushed by OPTIONS and filled by STORE_OPTION
(Interpreter.Option: ANCHOR, FORMAT, NULL, SEPARATOR, WRAP), each either
unset (None) or holding a stored value. -/
structure WOpts where
  anchorOpt : Option PyVal := none
  formatOpt : Option PyVal := none
  nullOpt : Option PyVal := none
  separatorOpt : Option PyVal := none
  wrapOpt : Option PyVal := none

/-- Result of a write call: the writer contents, the errors reported to
the error manager so far (as the literal kind strings the interpreter
passes), and the returned character count.  The writer is an
AutoIndentWriter with default line_width = NO_WRAP over a StringIO, no
indentation pushed and newline "\n", for which write(text) and
write(text, anchor_flag) both append `text` verbatim and return its
length (write_wrap does nothing when line_width is NO_WRAP). -/
structure WriteRes where
  out : String
  errs : List String
  written : Nat
deriving DecidableEq

/-- Interpreter._write_object_with_options (interpreter.py lines
1206-1307).  A None value consults only the null option: its text is
written with a plain `out.write(str(options[NULL]))` - the writer is an
AutoIndentWriter with default line_width = NO_WRAP over a StringIO, for
which write appends the text verbatim and returns its length - or, with
no null option, nothing is written and 0 is returned.  For every other
value, after the wrap and separator options are coerced to strings and
the anchor flag is read (`options[ANCHOR] is True`), and the value not
being an ST (outside the modelled domain), the renderer lookup
`renderer = self.group.get_renderer(type(o))` at line 1237 raises
AttributeError: STGroup and its subclasses define only
get_attribute_renderer, no get_renderer.  Everything after that line -
the non-iterable leaf, the iteration loop with its separator, null-skip
and WRITE_IO_ERROR handling - is unreachable, so no element text, no
separator and no null text is ever written and no error is ever
reported for a non-None value. -/
def writeObjectWithOptions (out : String) (options : WOpts) (o : PyVal) :
    Except PyExc WriteRes :=
  match o with
  | .vnone =>
    match options.nullOpt with
    | some nv =>
      let s := pyStr nv
      .ok ⟨out ++ s, [], s.length⟩
    | none => .ok ⟨out, [], 0⟩
  | _ =>
    let wrap : Option String := options.wrapOpt.map pyStr
    let separator : Option String := options.separatorOpt.map pyStr
    let anchor : Bool := anchorIsTrue options.anchorOpt
    .error (.attributeError "STGroup.get_renderer")

/- ================================================================
   § 5  Interpreter._zip_map  (interpreter.py lines 691-724)
   ================================================================ -/

/-- Interpreter._get_number_of_elements (interpreter.py lines 1471-1499):
list/tuple/array/str report len, dict-likes report len, None reports 0;
any other value falls to `self.group.get_adaptor(type(o))`, a method
STGroup does not define, so the call raises AttributeError. -/
def getNumberOfElements : PyVal → Except PyExc Nat
  | .vnone => .ok 0
  | .vlist xs => .ok xs.length
  | .vtuple xs => .ok xs.length
  | .vstr s => .ok s.length
  | .vdict es => .ok es.length
  | .vset _ => .error (.attributeError "STGroup.get_adaptor")
  | .vint _ => .error (.attributeError "STGroup.get_adaptor")
  | .vbool _ => .error (.attributeError "STGroup.get_adaptor")
  | .vobj _ => .error (.attributeError "STGroup.get_adaptor")

/-- The length check of _zip_map (lines 702-710): walk the expressions in
order and stop at the first whose element count differs from n (false =
mismatch found; an exception from counting propagates). -/
def zipLengthsOk (n : Nat) : List PyVal → Except PyExc Bool
  | [] => .ok true
  | e :: rest => do
    let m ← getNumberOfElements e
    if m ≠ n then .ok false else zipLengthsOk n rest

/-- One round of `next` over all iterators (lines 717-719): position i of
every iterator, in order; a None iterator would raise TypeError, an
exhausted one StopIteration (neither is reachable after the length check
passes). -/
def zipNextArgs : List (Option (List PyVal)) → Nat → Except PyExc (List PyVal)
  | [], _ => .ok []
  | it :: rest, i => do
    let v ← (match it with
      | none => .error (.typeError "NoneType is not an iterator")
      | some xs =>
        match xs.get? i with
        | some v => .ok v
        | none => .error (.stopIteration) : Except PyExc PyVal)
    let vs ← zipNextArgs rest i
    .ok (v :: vs)

/-- The iterator list of _zip_map (lines 712-714): _to_iterator on each
expression, in order. -/
def buildIterators : List PyVal → Except PyExc (List (Option (List PyVal)))
  | [] => .ok []
  | e :: rest => do
    let it ← toIterator e
    let its ← buildIterators rest
    .ok (it :: its)

/-- Interpreter._apply_template_with_args (interpreter.py lines
779-830), the applied template abstracted to the names of its formal
arguments, reading `st.compiled` as the
CompiledST of the instance, per the header convention.  A template whose formal_arguments map is falsy
(None or empty) skips the whole argument-passing block and is returned
unchanged.  Otherwise the i/i0 slots are set and the locals allocated
without incident, and the value-assignment loop reads
`st.compiled.args_metadata[j].name` - an attribute CompiledST never
defines - so it raises AttributeError at its first iteration.  The loop
runs min(len(values), len(formal_arguments)) times starting at 0, or,
when a formal named "it" exists, values[0] is assigned to "it" directly
and the loop starts at 1; it is skipped (and the call returns) only
when that bound is 0, or 1 in the "it" case. -/
def applyTemplateWithArgs (formalNames : List String) (values : List PyVal) :
    Except PyExc Unit :=
  if formalNames.isEmpty then .ok ()
  else if formalNames.contains "it" then
    if min values.length formalNames.length ≤ 1 then .ok ()
    else .error (.attributeError "CompiledST.args_metadata")
  else
    if min values.length formalNames.length = 0 then .ok ()
    else .error (.attributeError "CompiledST.args_metadata")

/-- The production loop of _zip_map (lines 715-722): for i in range(n),
build the argument vector - one `next` per iterator followed by the two
implicit-loop values args[-2] = i and args[-1] = i + 1 - and apply the
prototype via _apply_template_with_args, which raises at the undefined
CompiledST.args_metadata whenever the template declares formal
arguments.  On success the same prototype instance is appended each
round; the result is modelled by its length. -/
def zipMapLoop (formalNames : List String) (its : List (Option (List PyVal))) :
    Nat → Nat → Except PyExc Nat
  | 0, _ => .ok 0
  | k + 1, i => do
    let argVals ← zipNextArgs its i
    let _ ← applyTemplateWithArgs formalNames (argVals ++ [.vint i, .vint (i + 1)])
    let m ← zipMapLoop formalNames its k (i + 1)
    .ok (m + 1)

/-- Interpreter._zip_map (interpreter.py lines 691-724): empty exprs give
the empty result (length 0); otherwise n is the element count of
exprs[0]; any expression with a different count reaches the
ZIP_MAP_ARGUMENT_COUNT_MISMATCH report - and err_mgr.run_time_error
itself raises AttributeError, because the default listener prints an
STRuntimeMessage whose __str__ calls the nowhere-defined
Interpreter.get_enclosing_instance_stack_string - so the `return []`
after the report is dead and _zip_map raises instead.  With equal
lengths the iterators are built and the loop runs; it returns the
result (one instance per round, modelled by the count) only for a
template without formal arguments, raising otherwise. -/
def zipMap (formalNames : List String) (exprs : List PyVal) : Except PyExc Nat :=
  match exprs with
  | [] => .ok 0
  | e0 :: _ => do
    let n ← getNumberOfElements e0
    let lensOk ← zipLengthsOk n exprs
    if !lensOk then
      .error (.attributeError "Interpreter.get_enclosing_instance_stack_string")
    else do
      let its ← buildIterators exprs
      zipMapLoop formalNames its n 0

/- ================================================================
   § 6  Interpreter._store_args_from_map  (interpreter.py lines 518-554)
   ================================================================ -/

/-- A formal argument descriptor (compiler/formal_argument.py): the name
and the index into the locals array. -/
structure FormalArg where
  name : String
  index : Nat
deriving DecidableEq

/-- A locals slot: the EMPTY_ATTR sentinel (compared by object identity
in the source) or a value. -/
inductive LocalVal where
  | emptyAttr
  | val (v : PyVal)

/-- Ordered-dict lookup over formal arguments
(`st.compiled.formal_arguments.get(k)`). -/
def findFormal : List FormalArg → String → Option FormalArg
  | [], _ => none
  | a :: rest, k => if a.name = k then some a else findFormal rest k

/-- Dict lookup with default None (`attrs.get(name, None)`); keys of a
Python dict are unique, so first match is the match. -/
def attrsGet : List (String × PyVal) → String → Option PyVal
  | [], _ => none
  | (k, v) :: rest, name => if k = name then some v else attrsGet rest name

/-- The slice of the invoked instance _store_args_from_map uses: its name
(`st.name` in the interpreter's view of ST), the formal arguments of its
compiled template (`st.compiled.formal_arguments`; the no-arg-list None
and the empty dict are both falsy and take the same branch, so both are
the empty list here), and its locals. -/
structure BoxInst where
  name : String
  formalArguments : List FormalArg
  locals : List LocalVal

/-- The Python test `value is not None` on the result of
`attrs.get(name, None)`: false both for a missing entry and for an entry
whose stored value is None. -/
def isNotNoneVal : PyVal → Bool
  | .vnone => false
  | _ => true

/-- The first loop of _store_args_from_map (lines 538-545): for every
formal argument in order, fetch the attrs entry; `if value is not None`
stores it (an entry whose stored value is None fails this test exactly
like a missing entry); otherwise a slot still holding EMPTY_ATTR is
initialised to None.  Out-of-range locals indexing raises IndexError as
in Python; the pair carries the locals as mutated up to the raise. -/
def storeFormalLoop (attrs : List (String × PyVal)) :
    List FormalArg → List LocalVal → List LocalVal × Option PyExc
  | [], ls => (ls, none)
  | fa :: rest, ls =>
    match attrsGet attrs fa.name with
    | some v =>
      if isNotNoneVal v then
        if fa.index < ls.length then storeFormalLoop attrs rest (ls.set fa.index (.val v))
        else (ls, some .indexError)
      else
        match ls.get? fa.index with
        | none => (ls, some .indexError)
        | some .emptyAttr => storeFormalLoop attrs rest (ls.set fa.index (.val .vnone))
        | some _ => storeFormalLoop attrs rest ls
    | none =>
      match ls.get? fa.index with
      | none => (ls, some .indexError)
      | some .emptyAttr => storeFormalLoop attrs rest (ls.set fa.index (.val .vnone))
      | some _ => storeFormalLoop attrs rest ls

/-- The condition under which the second loop of _store_args_from_map
(lines 548-554) reaches a report: some attrs key names no formal
argument. -/
def hasExtraKey (formals : List FormalArg) (attrs : List (String × PyVal)) : Bool :=
  attrs.any (fun kv => (findFormal formals kv.1).isNone)

/-- What a _store_args_from_map call leaves behind: a normal return with
the mutated instance, or an exception escaping the call, paired with the
mutations made before the raise. -/
inductive StoreArgsOutcome where
  | returned (st : BoxInst)
  | raised (st : BoxInst) (e : PyExc)

/-- Interpreter._store_args_from_map (interpreter.py lines 518-554) with
the error manager as it really behaves: err_mgr.run_time_error builds an
STRuntimeMessage and the default listener prints it, but
STRuntimeMessage.__str__ (st_runtime_message.py line 90) calls
Interpreter.get_enclosing_instance_stack_string, a method defined
nowhere in the tree, so every report raises AttributeError out of the
reporting call.  Empty attrs return at once.  A template with no formal
arguments reaches the ARGUMENT_COUNT_MISMATCH report, which raises
before anything is stored - the `return` after it is dead.  Otherwise
the first loop stores every matching non-None entry (and normalises
EMPTY slots); the second loop then walks attrs and raises at its first
report when some key names no formal argument, the stores of the first
loop having already happened - the remaining extra keys are never
reported, and no error is ever returned as a value to the caller. -/
def storeArgsFromMap (attrs : List (String × PyVal)) (st : BoxInst) : StoreArgsOutcome :=
  if attrs.isEmpty then .returned st
  else if st.formalArguments.isEmpty then
    .raised st (.attributeError "Interpreter.get_enclosing_instance_stack_string")
  else
    match storeFormalLoop attrs st.formalArguments st.locals with
    | (ls, some e) => .raised { st with locals := ls } e
    | (ls, none) =>
      if hasExtraKey st.formalArguments attrs then
        .raised { st with locals := ls }
          (.attributeError "Interpreter.get_enclosing_instance_stack_string")
      else .returned { st with locals := ls }

/- ================================================================
   § 7  ST.add and CompiledST.clone
        (st.py lines 107-120 and 163-242, compiled_st.py lines 132-173
         and 240-250)
   ================================================================ -/

/-- The value domain for the ST.add claim: None, scalars, plain Python
lists, and the ST.AttributeList list subclass (st.py lines 155-161),
which passes isinstance(_, list) but marks lists the engine created. -/
inductive AVal where
  | anone
  | aint (n : Int)
  | astr (s : String)
  | alist (xs : List AVal)
  | attrList (xs : List AVal)

/-- A locals slot of an ST instance in the add model. -/
inductive ALocal where
  | emptyAttr
  | val (v : AVal)

/-- The slice of CompiledST that ST.add reads and writes: the ordered
formal-arguments map (None when no argument list was compiled) and the
has_formal_args flag. -/
structure CompiledSTMem where
  formalArguments : Option (List FormalArg)
  hasFormalArgs : Bool

/-- Python object identity for CompiledST values: ST instances hold an
index into this store, so instances sharing one CompiledST hold the same
index, and mutating the entry is visible through every such index. -/
abbrev ImplStore := List CompiledSTMem

/-- An ST instance as ST.add sees it: the reference to its CompiledST
and its locals (None until allocated). -/
structure STInst where
  implRef : Nat
  locals : Option (List ALocal)

/-- CompiledST.add_arg (compiled_st.py lines 240-250): allocate the map
if absent, reject duplicates (ValueError), give the argument the next
index and append it. -/
def addArg (c : CompiledSTMem) (name : String) : Except String CompiledSTMem :=
  let fas := c.formalArguments.getD []
  match findFormal fas name with
  | some _ => .error "formal argument already exists"
  | none => .ok { c with formalArguments := some (fas ++ [⟨name, fas.length⟩]) }

/-- ST._convert_to_attribute_list (st.py lines 339-372) on this domain:
None becomes a fresh one-element AttributeList holding None; an
AttributeList is used as is; a plain list is copied into a fresh
AttributeList; any other value is wrapped singleton.  (Tuples, sets,
dicts and other iterables are outside this domain.) -/
def convertToAttributeList : AVal → List AVal
  | .anone => [.anone]
  | .attrList xs => xs
  | .alist xs => xs
  | v => [v]

/-- The incoming-value merge of ST.add (st.py lines 223-240): a list
(including an AttributeList, a list subclass) is flattened in; any other
value - None included, since the elif chain requires `value is not
None` - is appended. -/
def multiExtend (multi : List AVal) (value : AVal) : List AVal :=
  match value with
  | .alist xs => multi ++ xs
  | .attrList xs => multi ++ xs
  | v => multi ++ [v]

/-- The tail of ST.add (st.py lines 209-242) once the formal argument is
known: `if not self.locals` (None or the empty list) raises; an EMPTY
slot takes the value; otherwise the slot becomes the AttributeList
merging the current value with the incoming one.  Only the locals of
the instance are touched. -/
def storeIntoLocals (st : STInst) (arg : FormalArg) (value : AVal) :
    Except String STInst :=
  match st.locals with
  | none => .error "no such attribute"
  | some [] => .error "no such attribute"
  | some ls =>
    match ls.get? arg.index with
    | none => .error "IndexError"
    | some .emptyAttr =>
      .ok { st with locals := some (ls.set arg.index (.val value)) }
    | some (.val cur) =>
      let multi := convertToAttributeList cur
      .ok { st with locals := some (ls.set arg.index (.val (.attrList (multiExtend multi value)))) }

/-- ST.add (st.py lines 163-242).  A dotted name raises; with
has_formal_args the argument must exist (else ValueError) and the
CompiledST is untouched; without it, a fresh name is DEFINED ON THE
SHARED CompiledST via impl.add_arg - no clone happens here - and the
locals are allocated ([EMPTY]) or grown to the new argument count before
the value is stored.  Debug-event tracking (off by default) is
omitted. -/
def stAdd (store : ImplStore) (st : STInst) (name : String) (value : AVal) :
    Except String (ImplStore × STInst) :=
  if name.data.contains '.' then .error "cannot have dot in attribute names"
  else
    match store.get? st.implRef with
    | none => .error "dangling CompiledST reference"
    | some impl =>
      if impl.hasFormalArgs then
        match findFormal (impl.formalArguments.getD []) name with
        | none => .error "no such attribute"
        | some arg =>
          match storeIntoLocals st arg value with
          | .error e => .error e
          | .ok st2 => .ok (store, st2)
      else
        match findFormal (impl.formalArguments.getD []) name with
        | some arg =>
          match storeIntoLocals st arg value with
          | .error e => .error e
          | .ok st2 => .ok (store, st2)
        | none =>
          match addArg impl name with
          | .error e => .error e
          | .ok impl2 =>
            let store2 := store.set st.implRef impl2
            let nFormals := (impl2.formalArguments.getD []).length
            let locals2 : List ALocal :=
              match st.locals with
              | none => [.emptyAttr]
              | some ls => ls ++ List.replicate (nFormals - ls.length) .emptyAttr
            match storeIntoLocals { st with locals := some locals2 }
                ⟨name, nFormals - 1⟩ value with
            | .error e => .error e
            | .ok st2 => .ok (store2, st2)

/-- CompiledST.clone (compiled_st.py lines 132-173): a new CompiledST
carrying the same data, with the formal-arguments map copied into a
fresh OrderedDict; the independence lives in the fresh store slot the
caller allocates for it. -/
def cloneImpl (c : CompiledSTMem) : CompiledSTMem :=
  { formalArguments := c.formalArguments, hasFormalArgs := c.hasFormalArgs }

/-- The ST clone constructor (st.py lines 107-120, the proto branch): the
new instance references `proto.impl.clone()` - a fresh store slot holding
the copy - and takes a shallow copy of the locals (or a fresh EMPTY row
when proto has no locals but its impl declares formal arguments). -/
def stProto (store : ImplStore) (proto : STInst) :
    Except String (ImplStore × STInst) :=
  match store.get? proto.implRef with
  | none => .error "dangling CompiledST reference"
  | some impl =>
    let locals2 : Option (List ALocal) :=
      match proto.locals with
      | some ls => some ls
      | none =>
        match impl.formalArguments with
        | some fas => if fas.isEmpty then none else some (List.replicate fas.length .emptyAttr)
        | none => none
    .ok (store ++ [cloneImpl impl], { implRef := store.length, locals := locals2 })

/-- The formal arguments an instance observes: those of the CompiledST
entry it references. -/
def observedFormals (store : ImplStore) (st : STInst) :
    Option (Option (List FormalArg)) :=
  (store.get? st.implRef).map (·.formalArguments)

/- ================================================================
   § 8  STGroup.lookup_template  (st_group.py lines 206-230 and 315-329)
   ================================================================ -/

/-- A value of the templates map of a group: the shared NOT_FOUND_ST
sentinel (compared by object identity in `code == STGroup.NOT_FOUND_ST`)
or a CompiledST, identified here by a number. -/
inductive TplEntry where
  | notFoundSentinel
  | tpl (c : Nat)
deriving DecidableEq

/-- OrderedDict read (`self.templates.get(name)`, raw_get_template). -/
def assocFind : List (String × TplEntry) → String → Option TplEntry
  | [], _ => none
  | (k0, v0) :: rest, k => if k0 = k then some v0 else assocFind rest k

/-- OrderedDict write (`self.templates[name] = ...`): update in place if
the key exists, else append. -/
def assocSet : List (String × TplEntry) → String → TplEntry → List (String × TplEntry)
  | [], k, v => [(k, v)]
  | (k0, v0) :: rest, k, v =>
    if k0 = k then (k0, v) :: rest else (k0, v0) :: assocSet rest k v

/-- An STGroup as lookup_template sees it: its own templates map and its
ordered list of imported groups (mutable state is threaded: both lookup
functions return the updated group(s), carrying the negative-cache
writes made anywhere in the import tree). -/
inductive STGroupM where
  | mk (templates : List (String × TplEntry)) (importedGroups : List STGroupM)

/-- The templates map of a group. -/
def STGroupM.templates : STGroupM → List (String × TplEntry)
  | .mk ts _ => ts

/-- The imported groups of a group, in import order. -/
def STGroupM.importedGroups : STGroupM → List STGroupM
  | .mk _ gs => gs

/-- The name normalisation at the top of lookup_template: a missing
leading slash is added (startswith of the one-character "/" is a check
of the first character). -/
def normalizeName (n : String) : String :=
  match n.data with
  | c :: _ => if c = '/' then n else "/" ++ n
  | [] => "/" ++ n

mutual

/-- STGroup.lookup_template (st_group.py lines 206-230): normalise the
name; a sentinel hit returns not-found at once; a template hit returns
it; on a miss, self.load(name) is tried - the base-class STGroup.load
(lines 248-252) returns None; the file and directory groups override it
with disk I/O, outside the modelled state - then the imports are
searched in order; a complete miss stores the sentinel into the own
templates map. -/
def lookupTemplate : STGroupM → String → Option Nat × STGroupM
  | .mk ts gs, name0 =>
    let name := normalizeName name0
    match assocFind ts name with
    | some .notFoundSentinel => (none, .mk ts gs)
    | some (.tpl c) => (some c, .mk ts gs)
    | none =>
      match lookupImportedTemplate gs name with
      | (some c, gs2) => (some c, .mk ts gs2)
      | (none, gs2) => (none, .mk (assocSet ts name .notFoundSentinel) gs2)

/-- STGroup.lookup_imported_template (st_group.py lines 315-329): walk
the imports in order, returning the first hit; each imported group runs
its own full lookup_template (with its own caching). -/
def lookupImportedTemplate : List STGroupM → String → Option Nat × List STGroupM
  | [], _ => (none, [])
  | g :: rest, name =>
    match lookupTemplate g name with
    | (some c, g2) => (some c, g2 :: rest)
    | (none, g2) =>
      match lookupImportedTemplate rest name with
      | (r, rest2) => (r, g2 :: rest2)

end

/- ================================================================
   § 9  The render chain  (st.py lines 380-475, interpreter.py 128-143
        and 468-495)
   ================================================================ -/

/-- The instance attributes ST.__init__ (st.py lines 91-153) assigns on
a template instance: impl, locals, group_that_created_this_instance and
debug_state.  No attribute is named `compiled`. -/
def stInstanceFields : List String :=
  ["impl", "locals", "group_that_created_this_instance", "debug_state"]

/-- Python attribute access on such an instance succeeds exactly for the
assigned fields. -/
def pyHasAttr (fields : List String) (attr : String) : Bool :=
  fields.contains attr

/-- What an Interpreter.exec call does when reached from
ST.write/ST.render. -/
inductive ExecOutcome where
  | vmLoopEntered
  | raised (e : PyExc)

/-- Interpreter.exec (interpreter.py lines 128-143): it first calls
_set_default_arguments, whose first statement reads
`scope.st.compiled.formal_arguments` (line 476).  st.py instances have
no attribute `compiled` - the field is named impl, as the Interpreter
class docstring itself says - so AttributeError is raised and caught by
the blanket `except Exception`, whose handler calls
err_mgr.run_time_error(..., INTERNAL_ERROR, ...).  That report itself
raises: the default listener prints the STRuntimeMessage, and its
__str__ (st_runtime_message.py line 90) calls the nowhere-defined
Interpreter.get_enclosing_instance_stack_string.  The new
AttributeError escapes the except clause, so exec raises instead of
reaching its `return 0`; only if the instance had the attribute would
the bytecode dispatch loop be entered. -/
def interpExec (fields : List String) : ExecOutcome :=
  if pyHasAttr fields "compiled" then .vmLoopEntered
  else .raised (.attributeError "Interpreter.get_enclosing_instance_stack_string")

/-- ST.render (st.py lines 456-475): an empty StringIO is wrapped in an
AutoIndentWriter and handed through ST.write to Interpreter.exec on the
regular (no output_file) path, which has no try/except; render returns
the buffer contents only after exec returns.  An exception from exec
propagates out of write and render, so render raises and returns no
string at all: this is the exception render raises, none when exec
enters the VM loop instead. -/
def renderRaises (fields : List String) : Option PyExc :=
  match interpExec fields with
  | .vmLoopEntered => none
  | .raised e => some e

/-- The StringTable invariant: the stored indices are exactly the
positions 0..len-1 in insertion order, and the counter i is len - 1
(it starts at -1 on the empty table). -/
def StringTable.WF (st : StringTable) : Prop :=
  st.table.map Prod.snd = (List.range st.table.length).map Int.ofNat ∧
  st.i = (st.table.length : Int) - 1

/- ================================================================
   Theorems
   ================================================================ -/

/-- C4: the claim that the code generator's write_short and the
interpreter's _get_short agree on a 16-bit big-endian layout fails on
the code.  write_short stores the value 1 at address 0 as the bytes
[0, 1] (high byte first, big-endian); Interpreter._get_short reads those
bytes low-byte-first (little-endian) and returns 256 instead of 1, while
the disassembler's get_short - the reader the compiler itself uses when
shifting branch operands - returns 1.  The compiler and the interpreter
disagree on the operand byte order, so the round trip of the claim fails
at v = 1, a = 0. -/
theorem C4_short_roundtrip_bug :
    write_short [0, 0] 0 1 = [0, 1] ∧
    interpreterGetShort (write_short [0, 0] 0 1) 0 = 256 ∧
    disassemblerGetShort (write_short [0, 0] 0 1) 0 = 1 ∧
    (256 : Nat) ≠ 1 := by
  decide

/-- C6: the truthiness used by conditionals and the boolean combinators
is as the claim states it on the modelled value domain: null is false, a
boolean is itself, strings, lists, tuples, sets and mappings are tested
by emptiness, and every other value - the integer zero in particular -
is true. -/
theorem C6_truthiness :
    testAttributeTrue .vnone = false ∧
    (∀ b, testAttributeTrue (.vbool b) = b) ∧
    (∀ s, testAttributeTrue (.vstr s) = !s.isEmpty) ∧
    (∀ xs, testAttributeTrue (.vlist xs) = !xs.isEmpty) ∧
    (∀ xs, testAttributeTrue (.vtuple xs) = !xs.isEmpty) ∧
    (∀ xs, testAttributeTrue (.vset xs) = !xs.isEmpty) ∧
    (∀ es, testAttributeTrue (.vdict es) = !es.isEmpty) ∧
    (∀ n, testAttributeTrue (.vint n) = true) ∧
    (∀ i, testAttributeTrue (.vobj i) = true) ∧
    testAttributeTrue (.vint 0) = true := by
  exact ⟨rfl, fun _ => rfl, fun _ => rfl, fun _ => rfl, fun _ => rfl,
    fun _ => rfl, fun _ => rfl, fun _ => rfl, fun _ => rfl, rfl⟩

/-- C1: attribute passthrough fails end to end.  For the template
t(x) ::= "<x>" (has_formal_args true, one formal argument x),
add("x", "hello") succeeds and stores the value into the locals, but
render never returns a string: Interpreter.exec reads the attribute
`compiled`, which st.py instances do not have (the field is named impl,
as the Interpreter class docstring itself says); the blanket except
catches the AttributeError and calls err_mgr.run_time_error, whose
report raises a fresh AttributeError at the nowhere-defined
Interpreter.get_enclosing_instance_stack_string, and that exception
escapes exec, write and render.  So render raises instead of producing
"hello" (or anything else). -/
theorem C1_render_raises :
    stAdd [⟨some [⟨"x", 0⟩], true⟩] ⟨0, some [.emptyAttr]⟩ "x" (.astr "hello")
      = .ok ([⟨some [⟨"x", 0⟩], true⟩], ⟨0, some [.val (.astr "hello")]⟩) ∧
    pyHasAttr stInstanceFields "compiled" = false ∧
    interpExec stInstanceFields
      = .raised (.attributeError "Interpreter.get_enclosing_instance_stack_string") ∧
    renderRaises stInstanceFields
      = some (.attributeError "Interpreter.get_enclosing_instance_stack_string") := by
  refine ⟨rfl, by decide, ?_, ?_⟩ <;> rfl

/-- A lookup miss is exactly absence of the key. -/
theorem tableLookup_eq_none_iff (t : List (String × Int)) (s : String) :
    tableLookup t s = none ↔ s ∉ t.map Prod.fst := by
  induction t with
  | nil => simp [tableLookup]
  | cons kv rest ih =>
    obtain ⟨k, v⟩ := kv
    by_cases h : k = s
    · subst h; simp [tableLookup]
    · simp [tableLookup, h, ih, Ne.symm h]

/-- A lookup hit is a binding of the table. -/
theorem tableLookup_mem {t : List (String × Int)} {s : String} {idx : Int}
    (h : tableLookup t s = some idx) : (s, idx) ∈ t := by
  induction t with
  | nil => simp [tableLookup] at h
  | cons kv rest ih =>
    obtain ⟨k, v⟩ := kv
    by_cases hk : k = s
    · subst hk
      simp [tableLookup] at h
      subst h
      exact List.mem_cons_self _ _
    · simp [tableLookup, hk] at h
      exact List.mem_cons_of_mem _ (ih h)

/-- Lookup walks past a block that misses. -/
theorem tableLookup_append_right {t1 t2 : List (String × Int)} {s : String}
    (h : tableLookup t1 s = none) :
    tableLookup (t1 ++ t2) s = tableLookup t2 s := by
  induction t1 with
  | nil => rfl
  | cons kv rest ih =>
    obtain ⟨k, v⟩ := kv
    by_cases hk : k = s
    · simp [tableLookup, hk] at h
    · have h2 : tableLookup rest s = none := by simpa [tableLookup, hk] using h
      show tableLookup ((k, v) :: (rest ++ t2)) s = tableLookup t2 s
      simp only [tableLookup, if_neg hk]
      exact ih h2

/-- The fresh table satisfies the invariant. -/
theorem StringTable.wf_empty : StringTable.empty.WF :=
  ⟨rfl, by decide⟩

/-- The invariant is preserved by add. -/
theorem StringTable.WF.add {st : StringTable} (h : st.WF) (s : String) :
    (st.add s).2.WF := by
  cases hl : tableLookup st.table s with
  | some idx =>
    have he : st.add s = (idx, st) := by simp [StringTable.add, hl]
    rw [he]; exact h
  | none =>
    have he : st.add s
        = (st.i + 1, { table := st.table ++ [(s, st.i + 1)], i := st.i + 1 }) := by
      simp [StringTable.add, hl]
    rw [he]
    obtain ⟨h1, h2⟩ := h
    have hi : st.i + 1 = Int.ofNat st.table.length := by
      simp only [Int.ofNat_eq_coe]; omega
    constructor
    · show (st.table ++ [(s, st.i + 1)]).map Prod.snd
        = (List.range (st.table ++ [(s, st.i + 1)]).length).map Int.ofNat
      rw [List.map_append, h1, List.length_append]
      simp only [List.map_cons, List.map_nil, List.length_cons, List.length_nil]
      rw [List.range_succ, List.map_append, hi]
      simp
    · show st.i + 1 = ((st.table ++ [(s, st.i + 1)]).length : Int) - 1
      simp only [List.length_append, List.length_cons, List.length_nil]
      omega

/-- The invariant is preserved by any add sequence. -/
theorem StringTable.WF.addAllFrom {st : StringTable} (h : st.WF) (l : List String) :
    (st.addAllFrom l).WF := by
  induction l generalizing st with
  | nil => exact h
  | cons s rest ih => exact ih (h.add s)

/-- Every table built by add calls from empty satisfies the invariant. -/
theorem StringTable.wf_addAll (l : List String) : (StringTable.addAll l).WF :=
  StringTable.wf_empty.addAllFrom l

/-- to_array after an add sequence is the first-occurrence fold of the
inputs over the starting to_array. -/
theorem toArray_addAllFrom (st : StringTable) (l : List String) :
    (st.addAllFrom l).toArray
      = l.foldl (fun acc s => if s ∈ acc then acc else acc ++ [s]) st.toArray := by
  induction l generalizing st with
  | nil => rfl
  | cons s rest ih =>
    have step : ((st.add s).2).toArray
        = if s ∈ st.toArray then st.toArray else st.toArray ++ [s] := by
      cases hl : tableLookup st.table s with
      | some idx =>
        have hmem : s ∈ st.table.map Prod.fst := by
          by_contra hc
          rw [← tableLookup_eq_none_iff st.table s] at hc
          rw [hc] at hl
          exact Option.noConfusion hl
        have he : st.add s = (idx, st) := by simp [StringTable.add, hl]
        rw [he]
        simp [StringTable.toArray, hmem]
      | none =>
        have hnm : s ∉ st.table.map Prod.fst := (tableLookup_eq_none_iff _ _).1 hl
        have he : st.add s
            = (st.i + 1, { table := st.table ++ [(s, st.i + 1)], i := st.i + 1 }) := by
          simp [StringTable.add, hl]
        rw [he]
        simp [StringTable.toArray, hnm]
    show (((st.add s).2).addAllFrom rest).toArray = _
    rw [ih, step]
    rfl

/-- A lookup hit on a well-formed table points into to_array. -/
theorem toArray_get_of_lookup {st : StringTable} (h : st.WF) {s : String} {idx : Int}
    (hl : tableLookup st.table s = some idx) :
    ∃ k : Nat, idx = Int.ofNat k ∧ st.toArray.get? k = some s := by
  have hm : (s, idx) ∈ st.table := tableLookup_mem hl
  obtain ⟨k, hk⟩ := List.mem_iff_get?.1 hm
  have hk_lt : k < st.table.length := by
    by_contra hge
    rw [List.get?_eq_none.2 (Nat.le_of_not_lt hge)] at hk
    exact Option.noConfusion hk
  refine ⟨k, ?_, ?_⟩
  · have hsnd : (st.table.map Prod.snd).get? k = some idx := by
      rw [List.get?_map, hk]; rfl
    rw [h.1, List.get?_map, List.get?_range hk_lt] at hsnd
    simpa using hsnd.symm
  · show (st.table.map Prod.fst).get? k = some s
    rw [List.get?_map, hk]; rfl

/-- C10: the StringTable pool laws.  For any sequence of adds starting
from the fresh table and any string s: (1) add(s) returns an index i
with to_array()[i] = s; (2) adding the same string again returns the
same index and leaves the table unchanged (add is idempotent); (3)
to_array lists the distinct strings exactly in first-insertion order,
and (4) the stored indices form the consecutive range 0..len-1. -/
theorem C10_string_table_pool_laws (l : List String) (s : String) :
    (∃ k : Nat, ((StringTable.addAll l).add s).1 = Int.ofNat k ∧
        ((StringTable.addAll l).add s).2.toArray.get? k = some s) ∧
    ((StringTable.addAll l).add s).2.add s
      = (((StringTable.addAll l).add s).1, ((StringTable.addAll l).add s).2) ∧
    (StringTable.addAll l).toArray = firstOccurrences l ∧
    (StringTable.addAll l).table.map Prod.snd
      = (List.range (StringTable.addAll l).table.length).map Int.ofNat := by
  have hwf : (StringTable.addAll l).WF := StringTable.wf_addAll l
  refine ⟨?_, ?_, ?_, hwf.1⟩
  · -- (1) the returned index points at s in to_array
    cases hl : tableLookup (StringTable.addAll l).table s with
    | some idx =>
      have he : (StringTable.addAll l).add s = (idx, StringTable.addAll l) := by
        simp [StringTable.add, hl]
      rw [he]
      exact toArray_get_of_lookup hwf hl
    | none =>
      set st := StringTable.addAll l with hst
      have he : st.add s
          = (st.i + 1, { table := st.table ++ [(s, st.i + 1)], i := st.i + 1 }) := by
        simp [StringTable.add, hl]
      rw [he]
      refine ⟨st.table.length, ?_, ?_⟩
      · have h2 := hwf.2
        simp only [Int.ofNat_eq_coe]
        omega
      · show ((st.table ++ [(s, st.i + 1)]).map Prod.fst).get? st.table.length = some s
        rw [List.map_append]
        rw [List.get?_append_right (by simp)]
        simp
  · -- (2) idempotence
    cases hl : tableLookup (StringTable.addAll l).table s with
    | some idx =>
      have he : (StringTable.addAll l).add s = (idx, StringTable.addAll l) := by
        simp [StringTable.add, hl]
      rw [he]
      simp [StringTable.add, hl]
    | none =>
      set st := StringTable.addAll l with hst
      have he : st.add s
          = (st.i + 1, { table := st.table ++ [(s, st.i + 1)], i := st.i + 1 }) := by
        simp [StringTable.add, hl]
      rw [he]
      have hl2 : tableLookup (st.table ++ [(s, st.i + 1)]) s = some (st.i + 1) := by
        rw [tableLookup_append_right hl]
        simp [tableLookup]
      simp [StringTable.add, hl2]
  · -- (3) first-insertion order
    have := toArray_addAllFrom StringTable.empty l
    simpa [StringTable.addAll, firstOccurrences, StringTable.toArray, StringTable.empty] using this

/-- C7: the null-option claim fails on the code.  Writing the list
[None] with null="-" (and a separator) raises AttributeError before the
iteration loop can run: the value is not None as a whole, so control
reaches the renderer lookup `self.group.get_renderer(type(o))` at
interpreter.py line 1237, a method STGroup does not define.  Neither
the "-" text nor anything else is written.  The null text is written
only when the WHOLE value is None (a plain out.write(str(...)) before
the renderer lookup); with no null option a None value writes nothing,
and every non-None value - lists with or without None elements included
- raises. -/
theorem C7_null_write_raises :
    writeObjectWithOptions ""
        { nullOpt := some (.vstr "-"), separatorOpt := some (.vstr ",") }
        (.vlist [.vnone])
      = .error (.attributeError "STGroup.get_renderer") ∧
    (∀ r : WriteRes,
      writeObjectWithOptions ""
          { nullOpt := some (.vstr "-"), separatorOpt := some (.vstr ",") }
          (.vlist [.vnone])
        ≠ .ok r) ∧
    writeObjectWithOptions "" { nullOpt := some (.vstr "-") } .vnone
      = .ok ⟨"-", [], 1⟩ ∧
    writeObjectWithOptions "" {} .vnone = .ok ⟨"", [], 0⟩ := by
  refine ⟨rfl, ?_, rfl, rfl⟩
  intro r h
  exact Except.noConfusion h

/-- C2: the separator law fails on the code.  For xs = ["ab"] with
separator ", ", the write never produces "ab" (nor anything): the list
is not None, so after the option coercions the renderer lookup
`self.group.get_renderer(type(o))` at interpreter.py line 1237 raises
AttributeError - STGroup and its subclasses define only
get_attribute_renderer - before the iterable test, the iterator and the
separator-joining loop are ever reached.  The raise is uniform in the
value: every non-None value aborts the write this way, whatever the
options. -/
theorem C2_separator_write_raises :
    writeObjectWithOptions "" { separatorOpt := some (.vstr ", ") }
        (.vlist [.vstr "ab"])
      = .error (.attributeError "STGroup.get_renderer") ∧
    (∀ r : WriteRes,
      writeObjectWithOptions "" { separatorOpt := some (.vstr ", ") }
          (.vlist [.vstr "ab"])
        ≠ .ok r) ∧
    (∀ (out : String) (opts : WOpts) (o : PyVal), o ≠ .vnone →
      writeObjectWithOptions out opts o
        = .error (.attributeError "STGroup.get_renderer")) := by
  refine ⟨rfl, ?_, ?_⟩
  · intro r h
    exact Except.noConfusion h
  · intro out opts o ho
    cases o with
    | vnone => exact absurd rfl ho
    | vbool b => rfl
    | vint n => rfl
    | vstr s => rfl
    | vlist xs => rfl
    | vtuple xs => rfl
    | vset xs => rfl
    | vdict es => rfl
    | vobj i => rfl

/-- C2 witness: the uniform-raise part of the theorem applied to the
concrete non-None value ["ab"] with the ", " separator option. -/
theorem C2_separator_write_raises_witness :
    writeObjectWithOptions "" { separatorOpt := some (.vstr ", ") }
        (.vlist [.vstr "ab"])
      = .error (.attributeError "STGroup.get_renderer") :=
  C2_separator_write_raises.2.2 "" { separatorOpt := some (.vstr ", ") }
    (.vlist [.vstr "ab"]) (fun h => PyVal.noConfusion h)

/-- Bind on a successful Except computes the continuation. -/
theorem exceptBind_ok {α β : Type} (a : α) (f : α → Except PyExc β) :
    (Except.ok a >>= f) = f a := rfl

/-- Bind on a failed Except propagates the failure. -/
theorem exceptBind_error {α β : Type} (e : PyExc) (f : α → Except PyExc β) :
    ((Except.error e : Except PyExc α) >>= f) = Except.error e := rfl

/-- The length check passes when every expression has length L. -/
theorem zipLengthsOk_all {L : Nat} {xss : List (List PyVal)}
    (h : ∀ xs ∈ xss, xs.length = L) :
    zipLengthsOk L (xss.map .vlist) = .ok true := by
  induction xss with
  | nil => rfl
  | cons x rest ih =>
    have hx : x.length = L := h x (by simp)
    have hr := ih (fun xs hxs => h xs (by simp [hxs]))
    simp [zipLengthsOk, getNumberOfElements, hx, hr, exceptBind_ok]

/-- The length check fails when some expression has a different length. -/
theorem zipLengthsOk_mismatch {n : Nat} {xss : List (List PyVal)}
    (h : ∃ xs ∈ xss, xs.length ≠ n) :
    zipLengthsOk n (xss.map .vlist) = .ok false := by
  induction xss with
  | nil =>
    rcases h with ⟨xs, hmem, _⟩
    simp at hmem
  | cons x rest ih =>
    by_cases hx : x.length = n
    · rcases h with ⟨xs, hmem, hlen⟩
      rcases List.mem_cons.mp hmem with heq | hmem2
      · subst heq; exact absurd hx hlen
      · have hr := ih ⟨xs, hmem2, hlen⟩
        simp [zipLengthsOk, getNumberOfElements, hx, hr, exceptBind_ok]
    · simp [zipLengthsOk, getNumberOfElements, hx, exceptBind_ok]

/-- Building iterators over lists succeeds and yields the lists. -/
theorem buildIterators_vlist (xss : List (List PyVal)) :
    buildIterators (xss.map .vlist) = .ok (xss.map some) := by
  induction xss with
  | nil => rfl
  | cons x rest ih => simp [buildIterators, toIterator, ih, exceptBind_ok]

/-- One next-round succeeds while the index is in range everywhere. -/
theorem zipNextArgs_ok {L i : Nat} {xss : List (List PyVal)}
    (h : ∀ xs ∈ xss, xs.length = L) (hi : i < L) :
    ∃ vals, zipNextArgs (xss.map some) i = .ok vals ∧ vals.length = xss.length := by
  induction xss with
  | nil => exact ⟨[], rfl, rfl⟩
  | cons x rest ih =>
    have hx : x.length = L := h x (by simp)
    have hlt : i < x.length := by omega
    obtain ⟨vals, hvals, hlen⟩ := ih (fun xs hxs => h xs (by simp [hxs]))
    have hv : x[i]? = some (x.get ⟨i, hlt⟩) := by
      rw [← List.get?_eq_getElem?]
      exact List.get?_eq_get hlt
    refine ⟨x.get ⟨i, hlt⟩ :: vals, ?_, by simp [hlen]⟩
    simp [zipNextArgs, hv, hvals, exceptBind_ok]

/-- The production loop over a template without formal arguments
succeeds with one instance per round while the iterators stay in
range. -/
theorem zipMapLoop_count {L : Nat} {xss : List (List PyVal)}
    (hlen : ∀ xs ∈ xss, xs.length = L) :
    ∀ count i, i + count ≤ L →
      zipMapLoop [] (xss.map some) count i = .ok count := by
  intro count
  induction count with
  | zero => intro i _; rfl
  | succ k ih =>
    intro i hle
    obtain ⟨vals, hvals, _⟩ := zipNextArgs_ok hlen (show i < L by omega)
    have happ : applyTemplateWithArgs [] (vals ++ [.vint i, .vint (i + 1)]) = .ok () := rfl
    simp only [zipMapLoop, hvals, exceptBind_ok, happ, ih (i + 1) (by omega)]

/-- C8: the zip-map claim fails on the code twice over.  On a length
mismatch _zip_map never returns the truncated (min-length) result the
claim expects - nor the empty list its own text promises: the
ZIP_MAP_ARGUMENT_COUNT_MISMATCH report raises AttributeError at the
nowhere-defined Interpreter.get_enclosing_instance_stack_string, so the
call raises for every template.  On equal lengths, applying a template
that declares formal arguments raises at the undefined
CompiledST.args_metadata on the first row.  Only a template with no
formal arguments lets _zip_map return: one (shared) instance per row,
L in all for equal lengths L. -/
theorem C8_zip_map_raises :
    (∀ (fns : List String) (r : Nat),
        zipMap fns [.vlist [.vint 1, .vint 2], .vlist [.vint 3]] ≠ .ok r) ∧
    zipMap ["x"] [.vlist [.vint 1, .vint 2], .vlist [.vint 3]]
      = .error (.attributeError "Interpreter.get_enclosing_instance_stack_string") ∧
    zipMap ["x", "y"] [.vlist [.vint 1], .vlist [.vint 2]]
      = .error (.attributeError "CompiledST.args_metadata") ∧
    (∀ (L : Nat) (xss : List (List PyVal)), (∀ xs ∈ xss, xs.length = L) →
        zipMap [] (xss.map .vlist)
          = .ok (match xss with | [] => 0 | _ :: _ => L)) := by
  refine ⟨?_, rfl, rfl, ?_⟩
  · intro fns r h
    rw [show zipMap fns [.vlist [.vint 1, .vint 2], .vlist [.vint 3]]
          = .error (.attributeError "Interpreter.get_enclosing_instance_stack_string")
        from rfl] at h
    exact Except.noConfusion h
  · intro L xss hlen
    cases xss with
    | nil => rfl
    | cons xs rest =>
      have hx : xs.length = L := hlen xs (by simp)
      have hall := zipLengthsOk_all hlen
      have hits := buildIterators_vlist (xs :: rest)
      have hloop := zipMapLoop_count hlen L 0 (by omega)
      show zipMap [] ((xs :: rest).map .vlist) = .ok L
      simp only [List.map_cons] at hall hits hloop ⊢
      simp only [zipMap, getNumberOfElements, exceptBind_ok, hx, hall, hits, hloop,
        Bool.not_true, Bool.false_eq_true, if_false]

/-- C8 witness: the no-formal-arguments return applied at the two
equal-length singleton lists [7] and [8], yielding one instance. -/
theorem C8_zip_map_raises_witness :
    zipMap [] [.vlist [.vint 7], .vlist [.vint 8]] = .ok 1 :=
  C8_zip_map_raises.2.2.2 1 [[.vint 7], [.vint 8]] (by
    intro xs hxs
    rcases List.mem_cons.mp hxs with rfl | hxs2
    · rfl
    · rcases List.mem_cons.mp hxs2 with rfl | hxs3
      · rfl
      · exact absurd hxs3 (List.not_mem_nil xs))

/-- C9: the store-args reporting claim fails on the code because every
err_mgr.run_time_error call itself raises AttributeError (the default
listener prints an STRuntimeMessage whose __str__ calls the
nowhere-defined Interpreter.get_enclosing_instance_stack_string).  With
the single formal x and the attrs map x = "w", y = "v", the first loop
stores "w" into the slot of x, then the second loop raises at its
report for the extra key y: the claimed ARGUMENT_COUNT_MISMATCH error
is never produced, and no error of any kind is returned.  A template
with no formal arguments raises the same way at the one
ARGUMENT_COUNT_MISMATCH report before storing anything, instead of
reporting per extra attribute.  Matching non-None entries alone are
stored and the call returns.  In general the call returns (rather than
raising) only when attrs is empty or no key is extra. -/
theorem C9_store_args_raises :
    storeArgsFromMap [("x", .vstr "w"), ("y", .vstr "v")]
        ⟨"t", [⟨"x", 0⟩], [.emptyAttr]⟩
      = .raised ⟨"t", [⟨"x", 0⟩], [.val (.vstr "w")]⟩
          (.attributeError "Interpreter.get_enclosing_instance_stack_string") ∧
    storeArgsFromMap [("y", .vstr "v")] ⟨"t", [], []⟩
      = .raised ⟨"t", [], []⟩
          (.attributeError "Interpreter.get_enclosing_instance_stack_string") ∧
    storeArgsFromMap [("x", .vstr "w")] ⟨"t", [⟨"x", 0⟩], [.emptyAttr]⟩
      = .returned ⟨"t", [⟨"x", 0⟩], [.val (.vstr "w")]⟩ ∧
    (∀ attrs st out, storeArgsFromMap attrs st = .returned out →
      attrs = [] ∨ hasExtraKey st.formalArguments attrs = false) := by
  refine ⟨rfl, rfl, rfl, ?_⟩
  intro attrs st out h
  by_cases ha : attrs.isEmpty
  · left
    exact List.isEmpty_iff.mp ha
  · right
    unfold storeArgsFromMap at h
    rw [if_neg ha] at h
    split at h
    · cases h
    · split at h
      · cases h
      · split at h
        · cases h
        · rename_i hx
          exact Bool.eq_false_iff.mpr hx

/- ================================================================
   Theorems for C5
   ================================================================ -/

/-- Every successful ST.add leaves every store entry other than the
one the instance references untouched: each branch of stAdd returns
the store unchanged or sets only index st.implRef. -/
theorem stAdd_preserves_other {store : ImplStore} {st : STInst}
    {name : String} {value : AVal} {store3 : ImplStore} {c2 : STInst}
    (h : stAdd store st name value = .ok (store3, c2)) :
    ∀ j, j ≠ st.implRef → store3.get? j = store.get? j := by
  intro j hj
  unfold stAdd at h
  dsimp only at h
  repeat' split at h
  all_goals first
  | exact Except.noConfusion h
  | (injection h with hp; injection hp with h1 h2; subst h1; rfl)
  | (injection h with hp; injection hp with h1 h2; subst h1;
     simp only [List.get?_eq_getElem?];
     exact List.getElem?_set_ne (Ne.symm hj))

/-- Inversion for the proto constructor: it reads the prototype's
CompiledST, appends its clone to the store, and the new instance
references that fresh last slot. -/
theorem stProto_ok {store : ImplStore} {proto : STInst}
    {store2 : ImplStore} {c : STInst}
    (h : stProto store proto = .ok (store2, c)) :
    ∃ impl, store.get? proto.implRef = some impl ∧
      store2 = store ++ [cloneImpl impl] ∧ c.implRef = store.length := by
  unfold stProto at h
  cases heq : store.get? proto.implRef with
  | none => rw [heq] at h; cases h
  | some impl =>
    rw [heq] at h
    dsimp only at h
    injection h with hp
    injection hp with h1 h2
    exact ⟨impl, rfl, h1.symm, by rw [← h2]⟩

/-- C5 counterexample: ST.add performs no copy-on-write.  Adding the
fresh attribute x to an instance whose CompiledST (store slot 0) has no
formal arguments mutates that shared CompiledST in place via
impl.add_arg, so a sibling instance referencing the same slot observes
the new formal-argument map: before the add it sees no map, afterwards
it sees x - no clone separated them. -/
theorem C5_add_mutates_shared_impl :
    stAdd [⟨none, false⟩] ⟨0, none⟩ "x" (.astr "v")
      = .ok ([⟨some [⟨"x", 0⟩], false⟩], ⟨0, some [.val (.astr "v")]⟩) ∧
    observedFormals [⟨none, false⟩] ⟨0, some []⟩ = some none ∧
    observedFormals [⟨some [⟨"x", 0⟩], false⟩] ⟨0, some []⟩
      = some (some [⟨"x", 0⟩]) ∧
    some (none : Option (List FormalArg)) ≠ some (some [⟨"x", 0⟩]) :=
  ⟨rfl, rfl, rfl, by decide⟩

/-- C5 (amended): the isolation the spec ascribes to add is provided
only by the prototype constructor, which replaces the CompiledST by a
clone in a fresh store slot.  After `c = ST(proto)`, adding an
attribute to c leaves the formal arguments observed by every
pre-existing instance unchanged, and adding to a pre-existing instance
leaves those observed by c unchanged - because stAdd writes at most the
store slot of the instance it is given, and the clone's slot is fresh. -/
theorem C5_proto_clone_isolation
    (store : ImplStore) (proto : STInst) (inst : STInst)
    (store2 : ImplStore) (c : STInst)
    (hinst : inst.implRef < store.length)
    (hproto : stProto store proto = .ok (store2, c)) :
    (∀ name value store3 c2,
        stAdd store2 c name value = .ok (store3, c2) →
        observedFormals store3 inst = observedFormals store inst) ∧
    (∀ name value store3 i2,
        stAdd store2 inst name value = .ok (store3, i2) →
        observedFormals store3 c = observedFormals store2 c) := by
  obtain ⟨impl, hget, hstore2, hcref⟩ := stProto_ok hproto
  have hne : inst.implRef ≠ c.implRef := by rw [hcref]; omega
  have h2 : store2.get? inst.implRef = store.get? inst.implRef := by
    subst hstore2
    simp only [List.get?_eq_getElem?]
    rw [List.getElem?_append, if_pos hinst]
  constructor
  · intro name value store3 c2 hadd
    have h1 : store3.get? inst.implRef = store2.get? inst.implRef :=
      stAdd_preserves_other hadd inst.implRef hne
    unfold observedFormals
    rw [h1, h2]
  · intro name value store3 i2 hadd
    have h1 : store3.get? c.implRef = store2.get? c.implRef :=
      stAdd_preserves_other hadd c.implRef (Ne.symm hne)
    unfold observedFormals
    rw [h1]

/-- C5 witness: from the one-slot store holding a CompiledST without
formal arguments, the prototype constructor yields a clone in slot 1;
adding x to the clone mutates only slot 1, so the original instance
(slot 0) still observes no formal-argument map. -/
theorem C5_proto_clone_isolation_witness :
    observedFormals [⟨none, false⟩, ⟨some [⟨"x", 0⟩], false⟩] ⟨0, none⟩
      = observedFormals [⟨none, false⟩] ⟨0, none⟩ :=
  (C5_proto_clone_isolation [⟨none, false⟩] ⟨0, none⟩ ⟨0, none⟩
      [⟨none, false⟩, ⟨none, false⟩] ⟨1, none⟩
      (by decide) rfl).1 "x" (.astr "v")
      [⟨none, false⟩, ⟨some [⟨"x", 0⟩], false⟩] ⟨1, some [.val (.astr "v")]⟩ rfl

/- ================================================================
   Theorems for C3
   ================================================================ -/

/-- An OrderedDict write is read back: after assocSet the key maps to
the value just stored. -/
theorem assocFind_assocSet_self (ts : List (String × TplEntry)) (k : String) (v : TplEntry) :
    assocFind (assocSet ts k v) k = some v := by
  induction ts with
  | nil => simp [assocSet, assocFind]
  | cons p rest ih =>
    obtain ⟨k0, v0⟩ := p
    by_cases hk : k0 = k
    · simp [assocSet, assocFind, hk]
    · simp [assocSet, assocFind, hk, ih]

/-- C3: lookup_template resolution order and negative caching.  (1) A
template present in the group's own map under the normalised name is
returned whatever the imports hold - the current group wins.  (2) A
sentinel entry returns not-found at once, imports unsearched and state
unchanged.  (3) On a genuine miss - self.load having returned None, as
the base STGroup.load always does - the outcome is exactly that of
searching the imports in order, and (4) an import list starting with a
group that resolves the name resolves to that earlier group's result.
(5) Negative caching: when a lookup misses, looking the same name up
again in the resulting group state returns not-found immediately and
changes nothing further. -/
theorem C3_lookup_template_resolution :
    (∀ ts gs n c, assocFind ts (normalizeName n) = some (.tpl c) →
        lookupTemplate (.mk ts gs) n = (some c, .mk ts gs)) ∧
    (∀ ts gs n, assocFind ts (normalizeName n) = some .notFoundSentinel →
        lookupTemplate (.mk ts gs) n = (none, .mk ts gs)) ∧
    (∀ ts gs n, assocFind ts (normalizeName n) = none →
        (lookupTemplate (.mk ts gs) n).fst
          = (lookupImportedTemplate gs (normalizeName n)).fst) ∧
    (∀ g rest nm c, (lookupTemplate g nm).fst = some c →
        (lookupImportedTemplate (g :: rest) nm).fst = some c) ∧
    (∀ g n, (lookupTemplate g n).fst = none →
        lookupTemplate (lookupTemplate g n).snd n
          = (none, (lookupTemplate g n).snd)) := by
  refine ⟨?_, ?_, ?_, ?_, ?_⟩
  · intro ts gs n c h
    simp [lookupTemplate, h]
  · intro ts gs n h
    simp [lookupTemplate, h]
  · intro ts gs n h
    cases hlt : lookupImportedTemplate gs (normalizeName n) with
    | mk r gs2 =>
      cases r with
      | none => simp [lookupTemplate, h, hlt]
      | some c => simp [lookupTemplate, h, hlt]
  · intro g rest nm c h
    cases hg : lookupTemplate g nm with
    | mk r g2 =>
      rw [hg] at h
      simp at h
      subst h
      simp [lookupImportedTemplate, hg]
  · intro g n h
    obtain ⟨ts, gs⟩ := g
    cases hf : assocFind ts (normalizeName n) with
    | some e =>
      cases e with
      | notFoundSentinel => simp [lookupTemplate, hf]
      | tpl c => simp [lookupTemplate, hf] at h
    | none =>
      cases hlt : lookupImportedTemplate gs (normalizeName n) with
      | mk r gs2 =>
        cases r with
        | some c => simp [lookupTemplate, hf, hlt] at h
        | none =>
          simp [lookupTemplate, hf, hlt, assocFind_assocSet_self]

/-- C3 witness: the five resolution properties at concrete groups - an
own-map hit (template 3 under /a), a sentinel hit, a miss delegating to
the single import holding /c, the earlier of two imports both defining
/d winning with template 9, and a complete miss on the empty group
whose second lookup of /e returns not-found with no further change. -/
theorem C3_lookup_template_resolution_witness :
    lookupTemplate (.mk [("/a", .tpl 3)] []) "a" = (some 3, .mk [("/a", .tpl 3)] []) ∧
    lookupTemplate (.mk [("/b", .notFoundSentinel)] []) "b"
      = (none, .mk [("/b", .notFoundSentinel)] []) ∧
    (lookupTemplate (.mk [] [.mk [("/c", .tpl 7)] []]) "c").fst
      = (lookupImportedTemplate [.mk [("/c", .tpl 7)] []] (normalizeName "c")).fst ∧
    (lookupImportedTemplate
        (.mk [("/d", .tpl 9)] [] :: [.mk [("/d", .tpl 1)] []]) "/d").fst = some 9 ∧
    lookupTemplate (lookupTemplate (.mk [] []) "e").snd "e"
      = (none, (lookupTemplate (.mk [] []) "e").snd) := by
  refine ⟨?_, ?_, ?_, ?_, ?_⟩
  · exact C3_lookup_template_resolution.1 [("/a", .tpl 3)] [] "a" 3 rfl
  · exact C3_lookup_template_resolution.2.1 [("/b", .notFoundSentinel)] [] "b" rfl
  · exact C3_lookup_template_resolution.2.2.1 [] [.mk [("/c", .tpl 7)] []] "c" rfl
  · exact C3_lookup_template_resolution.2.2.2.1 (.mk [("/d", .tpl 9)] [])
      [.mk [("/d", .tpl 1)] []] "/d" 9 rfl
  · exact C3_lookup_template_resolution.2.2.2.2 (.mk [] []) "e" rfl
